import Mathlib

/-!
Verification of the ComfyUI image+audio-to-video orchestration node
(`src/nodes/ComfyUI/ComfyuiImageAudioToVideo.node.ts`).

The execute flow is shallowly embedded: the workflow graph is an ordered
keyed collection of nodes (JS object insertion order is modelled by a
list of key/node pairs), graph mutation becomes functional update,
fallible steps return `Except NodeError`, and the poll loop becomes a
fuel-bounded recursion over an abstract sequence of backend responses.
-/

namespace ComfyUI

/-- JSON-ish values held in a node's `inputs` parameter bag.  The code
never inspects these values (only presence via `!== undefined` and
overwriting with a string), so a small value universe suffices; a key
absent from the association list models a JS-`undefined` entry. -/
inductive JVal where
  | str : String → JVal
  | num : Int → JVal
  | bool : Bool → JVal
  | null : JVal
  deriving DecidableEq, Repr

/-- A parameter bag: association list from input name to defined value. -/
abbrev Inputs := List (String × JVal)

/-- `ComfyUINode`: `{ inputs: Record<string, any>, class_type: string,
_meta?: {title} }`.  `inputs` is optional because the runtime predicate
guards with `node.inputs &&` before dereferencing. -/
structure ComfyUINode where
  class_type : String
  inputs : Option Inputs
  meta : Option String := none
  deriving DecidableEq, Repr

/-- `ComfyUIWorkflow`: keyed mapping node-id → node, in insertion order
(`Object.values` iterates string keys in insertion order). -/
abbrev Workflow := List (String × ComfyUINode)

/-- The error taxonomy of the node (each `NodeApiError` throw site). -/
inductive NodeError where
  | malformedGraph
  | missingImageNode
  | missingAudioNode
  | invalidInputMedia
  | uploadFailed
  | submissionRejected
  | generationFailed
  | generationTimeout
  | noMediaOutputs
  | noVideoOutputs
  | outputNotFound
  deriving DecidableEq, Repr

/-- JS `String.prototype.endsWith`: suffix match on the character
sequence. -/
def strEndsWith (s suffix : String) : Bool :=
  suffix.data.isSuffixOf s.data

/-- JS `String.prototype.startsWith`: prefix match on the character
sequence. -/
def strStartsWith (s pre : String) : Bool :=
  pre.data.isPrefixOf s.data

/-- Write `v` at key `k` in a parameter bag: replace the first binding if
the key is present, append otherwise (JS property assignment on an object
with unique keys). -/
def setKey : Inputs → String → JVal → Inputs
  | [], k, v => [(k, v)]
  | (k', v') :: rest, k, v =>
    if k' = k then (k, v) :: rest else (k', v') :: setKey rest k v

/-- `node.class_type === 'LoadImage' && node.inputs && node.inputs.image
!== undefined` (line 274-276). -/
def eligibleImage (n : ComfyUINode) : Bool :=
  n.class_type = "LoadImage" &&
    (match n.inputs with
     | some i => (i.lookup "image").isSome
     | none => false)

/-- `loadImageNode.inputs.image = imageInfo.name` (line 280). -/
def setImageInput (name : String) (n : ComfyUINode) : ComfyUINode :=
  { n with inputs := some (setKey (n.inputs.getD []) "image" (.str name)) }

/-- Replace the first node (in insertion order) satisfying `p` by its
image under `f`; `none` when no node matches.  This is
`Object.values(wf).find(p)` followed by in-place mutation of the found
node. -/
def patchFirst (p : ComfyUINode → Bool) (f : ComfyUINode → ComfyUINode) :
    Workflow → Option Workflow
  | [] => none
  | (k, n) :: rest =>
    if p n then some ((k, f n) :: rest)
    else
      match patchFirst p f rest with
      | some rest' => some ((k, n) :: rest')
      | none => none

/-- The LoadImage patch step (lines 273-281): locate the image-input node
and overwrite its `image` parameter with the uploaded asset's name;
`MissingImageNode` when no node matches. -/
def patchImage (wf : Workflow) (assetName : String) : Except NodeError Workflow :=
  match patchFirst eligibleImage (setImageInput assetName) wf with
  | some wf' => .ok wf'
  | none => .error .missingImageNode

/-- `node.class_type === 'LoadAudio' && node.inputs && (node.inputs.audio
!== undefined || node.inputs.filename !== undefined)` (lines 285-287). -/
def eligibleAudio (n : ComfyUINode) : Bool :=
  n.class_type = "LoadAudio" &&
    (match n.inputs with
     | some i => (i.lookup "audio").isSome || (i.lookup "filename").isSome
     | none => false)

/-- The write-time dispatch of the LoadAudio patch (lines 292-299): write
the `audio` key if defined, else the `filename` key if defined, else
fall back to writing `audio`. -/
def writeAudio (name : String) (n : ComfyUINode) : ComfyUINode :=
  let i := n.inputs.getD []
  if (i.lookup "audio").isSome then
    { n with inputs := some (setKey i "audio" (.str name)) }
  else if (i.lookup "filename").isSome then
    { n with inputs := some (setKey i "filename" (.str name)) }
  else
    { n with inputs := some (setKey i "audio" (.str name)) }

/-- The optional LoadAudio patch step (lines 284-301): skipped entirely
when no audio asset was uploaded (`audioInfo` null); otherwise locate the
audio-input node and write the asset name, failing with
`MissingAudioNode` when no node matches. -/
def patchAudioStep (wf : Workflow) (audioInfo : Option String) :
    Except NodeError Workflow :=
  match audioInfo with
  | none => .ok wf
  | some name =>
    match patchFirst eligibleAudio (writeAudio name) wf with
    | some wf' => .ok wf'
    | none => .error .missingAudioNode

/-- The whole patch phase in source order: image patch (unconditional),
then the optional audio patch. -/
def patchPhase (wf : Workflow) (imageName : String) (audioInfo : Option String) :
    Except NodeError Workflow :=
  match patchImage wf imageName with
  | .error e => .error e
  | .ok wf' => patchAudioStep wf' audioInfo

/-! ### Output resolution (lines 356-416) -/

/-- One output descriptor in a node's output group:
`{filename, subfolder?, type}`. -/
structure OutputEntry where
  filename : String
  subfolder : Option String
  type : String
  deriving DecidableEq, Repr

/-- One node's output group; `images` and `gifs` may each be absent. -/
structure NodeOutput where
  images : Option (List OutputEntry)
  gifs : Option (List OutputEntry)
  deriving DecidableEq, Repr

/-- `nodeOutput.images || nodeOutput.gifs || []` (line 361): JS `||`
takes the first defined operand — an empty `images` array is truthy and
still shadows `gifs`. -/
def groupEntries (no : NodeOutput) : List OutputEntry :=
  match no.images with
  | some l => l
  | none => no.gifs.getD []

/-- `${apiUrl}/view?filename=...&subfolder=...&type=...` (line 365). -/
def viewUrl (apiUrl : String) (e : OutputEntry) : String :=
  apiUrl ++ "/view?filename=" ++ e.filename ++ "&subfolder=" ++
    e.subfolder.getD "" ++ "&type=" ++ e.type

/-- The flattened, kind-filtered candidate list with resolved URLs
(lines 360-366): flatten every node's `images`-or-`gifs` entries, keep
kinds `"output"` and `"temp"`, attach the view URL. -/
def mediaOutputs (apiUrl : String) (outputs : List (String × NodeOutput)) :
    List (OutputEntry × String) :=
  ((outputs.map Prod.snd).flatMap groupEntries).filter
      (fun e => e.type = "output" || e.type = "temp")
    |>.map (fun e => (e, viewUrl apiUrl e))

/-- The video-extension allow-list (lines 375-379). -/
def isVideoFilename (f : String) : Bool :=
  strEndsWith f ".webp" || strEndsWith f ".mp4" || strEndsWith f ".gif"

/-- Output resolution (lines 356-388): `NoMediaOutputs` when the kept
candidate list is empty, `NoVideoOutputs` when no kept candidate has a
video extension, else the first matching candidate in flatten order. -/
def resolveOutput (apiUrl : String) (outputs : List (String × NodeOutput)) :
    Except NodeError (OutputEntry × String) :=
  let media := mediaOutputs apiUrl outputs
  if media.length = 0 then .error .noMediaOutputs
  else
    match media.filter (fun c => isVideoFilename c.1.filename) with
    | [] => .error .noVideoOutputs
    | v :: _ => .ok v

/-- MIME / file-extension mapping from the selected filename
(lines 406-416): default `image/webp`, overridden for `.mp4` and
`.gif`. -/
def mimeFor (filename : String) : String × String :=
  if strEndsWith filename ".mp4" then ("video/mp4", "mp4")
  else if strEndsWith filename ".gif" then ("image/gif", "gif")
  else ("image/webp", "webp")

/-! ### Poll loop (lines 322-354, 438) -/

/-- `promptResult.status`: `{completed, status_str}`; either field may be
absent in the backend record (`status?.completed` falsy when absent,
`status_str === 'error'` false when absent). -/
structure PromptStatus where
  completed : Bool
  status_str : Option String
  deriving DecidableEq, Repr

/-- `history[promptId]`: status (possibly undefined) plus outputs. -/
structure PromptResult where
  status : Option PromptStatus
  outputs : List (String × NodeOutput)
  deriving DecidableEq, Repr

/-- One poll tick's decision (lines 338-354): `none` means keep polling
(record absent, status undefined, or not completed); `some` is terminal —
`GenerationFailed` when `completed` and `status_str === 'error'`
(line 353), else success with the record. -/
def pollTick (r : Option PromptResult) : Option (Except NodeError PromptResult) :=
  match r with
  | none => none
  | some pr =>
    match pr.status with
    | none => none
    | some st =>
      if st.completed then
        if st.status_str = some "error" then some (.error .generationFailed)
        else some (.ok pr)
      else none

/-- The `while (attempts < maxAttempts)` loop (lines 326-437), fuel =
remaining attempts; `responses i` is the backend's history record at the
(i+1)-th status query.  Exhausted fuel is the `GenerationTimeout` throw
after the loop (line 438).  Returns the outcome together with the number
of status queries performed. -/
def pollAux (responses : Nat → Option PromptResult) (attempt : Nat) :
    Nat → Except NodeError PromptResult × Nat
  | 0 => (.error .generationTimeout, attempt)
  | fuel + 1 =>
    match pollTick (responses attempt) with
    | some o => (o, attempt + 1)
    | none => pollAux responses (attempt + 1) fuel

/-- The poll loop with its attempt cap `maxAttempts = 60 * timeout`
(line 324); `timeout` is the configured timeout in minutes. -/
def pollLoop (responses : Nat → Option PromptResult) (timeoutMinutes : Nat) :
    Except NodeError PromptResult × Nat :=
  pollAux responses 0 (60 * timeoutMinutes)

/-- A poll response on which the loop keeps polling: record absent,
status field undefined, or not completed.  (`completed` collapses JS
truthiness: an absent `completed` reads as `false`.) -/
def observesNoCompletion (r : Option PromptResult) : Prop :=
  ∀ pr st, r = some pr → pr.status = some st → st.completed = false

/-! ### Uploads (lines 212-251) and audio binary lookup (lines 236-253) -/

/-- The multipart upload request built by `uploadBuffer` (lines 212-230):
bytes under field `image`, `subfolder=""`, `overwrite="true"`, posted to
`/upload/image`. -/
structure UploadRequest where
  url : String
  fileField : String
  filename : String
  subfolder : String
  overwrite : String
  deriving DecidableEq, Repr

/-- `uploadBuffer`'s request for a given filename. -/
def uploadRequest (apiUrl filename : String) : UploadRequest :=
  { url := apiUrl ++ "/upload/image"
    fileField := "image"
    filename := filename
    subfolder := ""
    overwrite := "true" }

/-- The sequence of upload requests an execution issues (lines 233, 251):
the image always as `input.png`, then the audio as `input.mp3` when an
audio buffer is uploaded. -/
def executeUploads (apiUrl : String) (audioUploaded : Bool) : List UploadRequest :=
  uploadRequest apiUrl "input.png" ::
    (if audioUploaded then [uploadRequest apiUrl "input.mp3"] else [])

/-- `ImageInfo`, the upload response handle `{name, subfolder, type}`
(lines 22-26); `name` is the backend's name for the stored asset and is
what the patch steps write (lines 280, 293-298), over the caller-chosen
upload filename. -/
structure ImageInfo where
  name : String
  subfolder : String
  type : String
  deriving DecidableEq, Repr

/-- The item's binary property table: property name ↦ optional declared
MIME type (`mimeType` may be absent on an entry). -/
abbrev BinaryTable := List (String × Option String)

/-- The audio upload decision (lines 236-253): empty property name means
no audio requested; a named property missing from the binary table is
silently skipped; a present property with a non-`audio/` MIME type
(absent MIME reads as `''`) fails with `InvalidInputMedia`; otherwise the
audio is uploaded.  Returns whether an audio asset was uploaded. -/
def audioUploadPlan (propName : String) (binary : BinaryTable) :
    Except NodeError Bool :=
  if propName = "" then .ok false
  else
    match binary.lookup propName with
    | none => .ok false
    | some mime =>
      if strStartsWith (mime.getD "") "audio/" then .ok true
      else .error .invalidInputMedia

/-- The audio half of the execution: decide on the upload from the binary
table, then run the audio patch step with the uploaded asset's name
(`assetName`, the name echoed by the upload response). -/
def audioPhase (propName : String) (binary : BinaryTable) (assetName : String)
    (wf : Workflow) : Except NodeError Workflow :=
  match audioUploadPlan propName binary with
  | .error e => .error e
  | .ok false => .ok wf
  | .ok true => patchAudioStep wf (some assetName)

/-! ### Concrete fixtures (used to instantiate the theorems) -/

/-- A `LoadImage` node with an empty `image` input (end-to-end scenario
graph of the spec). -/
def n3 : ComfyUINode := { class_type := "LoadImage", inputs := some [("image", .str "")] }

/-- A sampler node, not a patch target. -/
def n4 : ComfyUINode := { class_type := "KSampler", inputs := some [("seed", .num 1)] }

/-- A two-node workflow with exactly one eligible image-input node. -/
def exWf : Workflow := [("3", n3), ("4", n4)]

/-- A `LoadAudio` node exposing an `audio` input. -/
def nAudio : ComfyUINode := { class_type := "LoadAudio", inputs := some [("audio", .str "")] }

/-- A workflow holding an image node and an `audio`-keyed audio node. -/
def audioWf : Workflow := [("3", n3), ("7", nAudio)]

/-- A static-image output entry. -/
def aPng : OutputEntry := { filename := "a.png", subfolder := some "", type := "output" }

/-- An animated-webp output entry. -/
def bWebp : OutputEntry := { filename := "b.webp", subfolder := some "", type := "output" }

/-- One node's outputs holding `a.png` then `b.webp` (spec's resolution
example). -/
def exOutputs : List (String × NodeOutput) :=
  [("9", { images := some [aPng, bWebp], gifs := none })]

/-- The same outputs with the video candidate removed. -/
def exOutputsNoVideo : List (String × NodeOutput) :=
  [("9", { images := some [aPng], gifs := none })]

/-- A completed-with-error status. -/
def errStatus : PromptStatus := { completed := true, status_str := some "error" }

/-- A history record that completed with an error status. -/
def errRec : PromptResult := { status := some errStatus, outputs := [] }

/-- A backend that reports the error record on the third query and no
record before it. -/
def errResponses : Nat → Option PromptResult := fun i =>
  if i = 2 then some errRec else none

/-! ### Helper lemmas -/

/-- Writing key `k` makes it readable with value `v`. -/
theorem lookup_setKey_self (i : Inputs) (k : String) (v : JVal) :
    (setKey i k v).lookup k = some v := by
  induction i with
  | nil => simp [setKey, List.lookup]
  | cons hd tl ih =>
    obtain ⟨k0, v0⟩ := hd
    by_cases h : k0 = k
    · subst h; simp [setKey, List.lookup]
    · have hbe : (k == k0) = false := by
        rw [beq_eq_false_iff_ne]; exact Ne.symm h
      simp [setKey, h, List.lookup, hbe, ih]

/-- Writing key `k` leaves every other key's binding unchanged. -/
theorem lookup_setKey_ne (i : Inputs) (k k' : String) (v : JVal) (h : k' ≠ k) :
    (setKey i k v).lookup k' = i.lookup k' := by
  have hbe : (k' == k) = false := by rw [beq_eq_false_iff_ne]; exact h
  induction i with
  | nil => simp [setKey, List.lookup, hbe]
  | cons hd tl ih =>
    obtain ⟨k0, v0⟩ := hd
    by_cases h0 : k0 = k
    · subst h0; simp [setKey, List.lookup, hbe]
    · simp [setKey, h0, List.lookup, ih]

/-- `patchFirst` finds nothing exactly when no node satisfies the
predicate. -/
theorem patchFirst_eq_none_iff (p : ComfyUINode → Bool) (f : ComfyUINode → ComfyUINode)
    (wf : Workflow) :
    patchFirst p f wf = none ↔ ∀ kn ∈ wf, p kn.2 = false := by
  induction wf with
  | nil => simp [patchFirst]
  | cons hd tl ih =>
    obtain ⟨k, n⟩ := hd
    cases hpn : p n with
    | true => simp [patchFirst, hpn]
    | false =>
      cases htl : patchFirst p f tl with
      | some rest' =>
        constructor
        · intro hc
          exact absurd hc (by simp [patchFirst, hpn, htl])
        · intro hall
          exact absurd (ih.mpr fun kn hm => hall kn (List.mem_cons_of_mem _ hm))
            (by simp [htl])
      | none =>
        constructor
        · intro _ kn hm
          rcases List.mem_cons.mp hm with rfl | hm'
          · simpa using hpn
          · exact ih.mp htl kn hm'
        · intro _
          simp [patchFirst, hpn, htl]

/-- When position `i` holds the first node satisfying `p`, `patchFirst`
rewrites exactly that position. -/
theorem patchFirst_eq_set (p : ComfyUINode → Bool) (f : ComfyUINode → ComfyUINode)
    (wf : Workflow) :
    ∀ (i : Nat) (k : String) (n : ComfyUINode),
      wf[i]? = some (k, n) → p n = true →
      (∀ j kn, j < i → wf[j]? = some kn → p kn.2 = false) →
      patchFirst p f wf = some (wf.set i (k, f n)) := by
  induction wf with
  | nil => intro i k n hget; simp at hget
  | cons hd tl ih =>
    intro i k n hget hp hbefore
    obtain ⟨k0, n0⟩ := hd
    cases i with
    | zero =>
      simp at hget
      obtain ⟨rfl, rfl⟩ := hget
      simp [patchFirst, hp]
    | succ i' =>
      have h0 : p n0 = false := hbefore 0 (k0, n0) (by omega) (by simp)
      have hrec := ih i' k n (by simpa using hget) hp
        (fun j kn hj hg => hbefore (j + 1) kn (by omega) (by simpa using hg))
      simp [patchFirst, h0, hrec]

/-- A response on which nothing completed yields no terminal tick. -/
theorem pollTick_eq_none_of (r : Option PromptResult) (h : observesNoCompletion r) :
    pollTick r = none := by
  cases r with
  | none => rfl
  | some pr =>
    cases hst : pr.status with
    | none => simp [pollTick, hst]
    | some st =>
      have hc := h pr st rfl hst
      simp [pollTick, hst, hc]

/-- A run of non-terminal ticks exhausts the fuel into a timeout, with
one status query per unit of fuel. -/
theorem pollAux_timeout (responses : Nat → Option PromptResult) :
    ∀ (fuel a : Nat),
      (∀ i, a ≤ i → i < a + fuel → pollTick (responses i) = none) →
      pollAux responses a fuel = (.error .generationTimeout, a + fuel) := by
  intro fuel
  induction fuel with
  | zero => intro a _; simp [pollAux]
  | succ f ih =>
    intro a h
    have h0 : pollTick (responses a) = none := h a (Nat.le_refl a) (by omega)
    have hr := ih (a + 1) (fun i h1 h2 => h i (by omega) (by omega))
    have harith : a + 1 + f = a + (f + 1) := by omega
    rw [harith] at hr
    simp [pollAux, h0, hr]

/-- The loop stops at the first terminal tick, having queried exactly
once per tick up to and including it. -/
theorem pollAux_first_hit (responses : Nat → Option PromptResult)
    (o : Except NodeError PromptResult) :
    ∀ (fuel a j : Nat), a ≤ j → j < a + fuel →
      (∀ i, a ≤ i → i < j → pollTick (responses i) = none) →
      pollTick (responses j) = some o →
      pollAux responses a fuel = (o, j + 1) := by
  intro fuel
  induction fuel with
  | zero => intro a j h1 h2 _ _; omega
  | succ f ih =>
    intro a j h1 h2 hbefore hj
    rcases Nat.eq_or_lt_of_le h1 with rfl | hlt
    · simp [pollAux, hj]
    · have h0 : pollTick (responses a) = none := hbefore a (Nat.le_refl a) hlt
      have hr := ih (a + 1) j hlt (by omega) (fun i hi1 hi2 => hbefore i (by omega) hi2) hj
      simp [pollAux, h0, hr]

/-! ### Claim theorems -/

/-- C1: for every well-formed graph with exactly one node of classType
`LoadImage` whose inputs contain a defined `image` key (at position `i`,
all other positions ineligible), the image patch step succeeds, sets that
node's `image` input to the uploaded asset handle's `name` field, and
leaves every other node of the graph unmodified. -/
theorem C1_image_patch (wf : Workflow) (info : ImageInfo) (i : Nat)
    (k : String) (n : ComfyUINode)
    (hget : wf[i]? = some (k, n))
    (helig : eligibleImage n = true)
    (huniq : ∀ j kn, j ≠ i → wf[j]? = some kn → eligibleImage kn.2 = false) :
    patchImage wf info.name = .ok (wf.set i (k, setImageInput info.name n)) ∧
    ((setImageInput info.name n).inputs.getD []).lookup "image" =
      some (.str info.name) ∧
    (wf.set i (k, setImageInput info.name n))[i]? =
      some (k, setImageInput info.name n) ∧
    (∀ j, j ≠ i → (wf.set i (k, setImageInput info.name n))[j]? = wf[j]?) := by
  have hfirst := patchFirst_eq_set eligibleImage (setImageInput info.name) wf i k n
    hget helig (fun j kn hj hg => huniq j kn (by omega) hg)
  refine ⟨?_, ?_, ?_, ?_⟩
  · simp [patchImage, hfirst]
  · exact lookup_setKey_self _ _ _
  · have hi : i < wf.length := by
      by_contra hge
      rw [List.getElem?_eq_none (by omega)] at hget
      cases hget
    simpa using List.getElem?_set_self hi
  · intro j hj
    exact List.getElem?_set_ne (Ne.symm hj)

/-- C1 witness: the end-to-end scenario graph, patched with an uploaded
handle named `uploaded.png`. -/
theorem C1_image_patch_witness :
    patchImage exWf "uploaded.png" =
      .ok [("3", { class_type := "LoadImage",
                   inputs := some [("image", .str "uploaded.png")] }),
           ("4", n4)] := by
  have h := C1_image_patch exWf ⟨"uploaded.png", "", "input"⟩ 0 "3" n3 rfl rfl ?uniq
  · exact h.1
  case uniq =>
    intro j kn hj hg
    match j, hj with
    | j + 1, _ =>
      match j, hg with
      | 0, hg =>
        have : kn = ("4", n4) := by simpa [exWf] using hg.symm
        subst this
        decide
      | j + 1, hg => simp [exWf] at hg

/-- C5: for every graph with no eligible image-input node (role match
without the `image` parameter does not count, since eligibility is
classType plus a defined `image` key), the patch phase fails with
`MissingImageNode` whether or not an audio asset was supplied, and the
lone image patch step fails the same way. -/
theorem C5_missing_image (wf : Workflow)
    (h : ∀ kn ∈ wf, eligibleImage kn.2 = false)
    (imageName : String) (audioInfo : Option String) :
    patchPhase wf imageName audioInfo = .error .missingImageNode ∧
    patchImage wf imageName = .error .missingImageNode := by
  have hn : patchFirst eligibleImage (setImageInput imageName) wf = none :=
    (patchFirst_eq_none_iff _ _ wf).mpr h
  constructor
  · simp [patchPhase, patchImage, hn]
  · simp [patchImage, hn]

/-- C5 witness: a graph whose only node is a sampler (and a LoadImage
node without an `image` key), with and without an audio asset. -/
theorem C5_missing_image_witness :
    patchPhase [("4", n4), ("5", { class_type := "LoadImage", inputs := some [] })]
        "x.png" (some "a.mp3") = .error .missingImageNode ∧
    patchPhase [("4", n4), ("5", { class_type := "LoadImage", inputs := some [] })]
        "x.png" none = .error .missingImageNode :=
  ⟨(C5_missing_image _ (by decide) "x.png" (some "a.mp3")).1,
   (C5_missing_image _ (by decide) "x.png" none).1⟩

/-- C6: when an audio asset was uploaded and the graph's first eligible
LoadAudio node sits at position `i`, the audio patch step rewrites
exactly that node through the write-time dispatch: a defined `audio` key
is overwritten (and `filename` left alone); with only a defined
`filename` key, `filename` is overwritten (and `audio` stays absent);
with neither key defined at write time, `audio` is written as the
fallback. -/
theorem C6_audio_patch (name : String) (wf : Workflow) (i : Nat)
    (k : String) (n : ComfyUINode)
    (hget : wf[i]? = some (k, n))
    (helig : eligibleAudio n = true)
    (hfirst : ∀ j kn, j < i → wf[j]? = some kn → eligibleAudio kn.2 = false) :
    patchAudioStep wf (some name) = .ok (wf.set i (k, writeAudio name n)) ∧
    (((n.inputs.getD []).lookup "audio").isSome = true →
      ((writeAudio name n).inputs.getD []).lookup "audio" = some (.str name) ∧
      ((writeAudio name n).inputs.getD []).lookup "filename" =
        (n.inputs.getD []).lookup "filename") ∧
    ((n.inputs.getD []).lookup "audio" = none →
      ((n.inputs.getD []).lookup "filename").isSome = true →
      ((writeAudio name n).inputs.getD []).lookup "filename" = some (.str name) ∧
      ((writeAudio name n).inputs.getD []).lookup "audio" = none) ∧
    ((n.inputs.getD []).lookup "audio" = none →
      (n.inputs.getD []).lookup "filename" = none →
      ((writeAudio name n).inputs.getD []).lookup "audio" = some (.str name)) := by
  refine ⟨?_, ?_, ?_, ?_⟩
  · have hp := patchFirst_eq_set eligibleAudio (writeAudio name) wf i k n hget helig hfirst
    simp [patchAudioStep, hp]
  · intro ha
    rw [writeAudio]
    simp only [ha, if_true]
    exact ⟨lookup_setKey_self _ _ _, lookup_setKey_ne _ _ _ _ (by decide)⟩
  · intro ha hf
    rw [writeAudio]
    simp only [ha, Option.isSome_none, Bool.false_eq_true, if_false, hf, if_true]
    refine ⟨lookup_setKey_self _ _ _, ?_⟩
    show List.lookup "audio" (setKey (n.inputs.getD []) "filename" (JVal.str name)) = none
    rw [lookup_setKey_ne _ _ _ _ (by decide)]
    exact ha
  · intro ha hf
    rw [writeAudio]
    simp only [ha, hf, Option.isSome_none, Bool.false_eq_true, if_false]
    exact lookup_setKey_self _ _ _

/-- C6 witness: an `audio`-keyed LoadAudio node receives the uploaded
asset name on its `audio` input. -/
theorem C6_audio_patch_witness :
    patchAudioStep audioWf (some "input.mp3") =
      .ok [("3", n3),
           ("7", { class_type := "LoadAudio",
                   inputs := some [("audio", .str "input.mp3")] })] ∧
    ((writeAudio "input.mp3" nAudio).inputs.getD []).lookup "audio" =
      some (.str "input.mp3") := by
  have h := C6_audio_patch "input.mp3" audioWf 1 "7" nAudio rfl rfl ?first
  · exact ⟨h.1, (h.2.1 rfl).1⟩
  case first =>
    intro j kn hj hg
    match j, hj with
    | 0, _ =>
      have : kn = ("3", n3) := by simpa [audioWf] using hg.symm
      subst this
      decide

/-- C7: with no audio asset uploaded the audio patch step is skipped
entirely (so `MissingAudioNode` is never raised, even on graphs without
any audio node); with an audio asset it raises `MissingAudioNode`
exactly when the graph has no node of classType `LoadAudio` with a
defined `audio` or `filename` input. -/
theorem C7_audio_guard (wf : Workflow) :
    patchAudioStep wf none = .ok wf ∧
    ∀ name, (patchAudioStep wf (some name) = .error .missingAudioNode ↔
      ∀ kn ∈ wf, eligibleAudio kn.2 = false) := by
  refine ⟨rfl, fun name => ?_⟩
  rw [← patchFirst_eq_none_iff eligibleAudio (writeAudio name) wf]
  cases hp : patchFirst eligibleAudio (writeAudio name) wf with
  | none => simp [patchAudioStep, hp]
  | some wf' => simp [patchAudioStep, hp]

/-- C7 witness: the audio-free scenario graph — skipped without an
asset, `MissingAudioNode` with one. -/
theorem C7_audio_guard_witness :
    patchAudioStep exWf none = .ok exWf ∧
    patchAudioStep exWf (some "input.mp3") = .error .missingAudioNode :=
  ⟨(C7_audio_guard exWf).1,
   ((C7_audio_guard exWf).2 "input.mp3").mpr (by decide)⟩

/-- C2: for every completed status record, resolution works on the
flattened, kind-filtered (`"output"`/`"temp"`) candidate list: it fails
with `NoMediaOutputs` when that list is empty, fails with
`NoVideoOutputs` when no kept candidate's filename ends in `.webp`,
`.mp4` or `.gif` (even when non-video candidates exist), and otherwise
selects the first matching candidate in flatten order. -/
theorem C2_output_resolution (apiUrl : String)
    (outputs : List (String × NodeOutput)) :
    (mediaOutputs apiUrl outputs = [] →
      resolveOutput apiUrl outputs = .error .noMediaOutputs) ∧
    (mediaOutputs apiUrl outputs ≠ [] →
      (mediaOutputs apiUrl outputs).filter
          (fun c => isVideoFilename c.1.filename) = [] →
      resolveOutput apiUrl outputs = .error .noVideoOutputs) ∧
    (∀ v rest,
      (mediaOutputs apiUrl outputs).filter
          (fun c => isVideoFilename c.1.filename) = v :: rest →
      resolveOutput apiUrl outputs = .ok v) := by
  refine ⟨?_, ?_, ?_⟩
  · intro h
    simp [resolveOutput, h]
  · intro hne hfilter
    have hlen : ¬ ((mediaOutputs apiUrl outputs).length = 0) := by
      simpa [List.length_eq_zero] using hne
    simp [resolveOutput, hlen, hfilter]
  · intro v rest hfilter
    have hne : mediaOutputs apiUrl outputs ≠ [] := by
      intro h
      rw [h] at hfilter
      cases hfilter
    have hlen : ¬ ((mediaOutputs apiUrl outputs).length = 0) := by
      simpa [List.length_eq_zero] using hne
    simp [resolveOutput, hlen, hfilter]

/-- C2 witness: on candidates `[a.png output, b.webp output]` resolution
selects `b.webp`; with `b.webp` absent it fails with `NoVideoOutputs`
although `a.png` exists. -/
theorem C2_output_resolution_witness :
    resolveOutput "http://x" exOutputs =
      .ok (bWebp, "http://x/view?filename=b.webp&subfolder=&type=output") ∧
    resolveOutput "http://x" exOutputsNoVideo = .error .noVideoOutputs :=
  ⟨(C2_output_resolution "http://x" exOutputs).2.2
      (bWebp, "http://x/view?filename=b.webp&subfolder=&type=output") [] rfl,
   (C2_output_resolution "http://x" exOutputsNoVideo).2.1 (by decide) rfl⟩

/-- C3: when no poll tick up to the attempt cap observes a completed
status, the loop performs exactly `60 × timeoutMinutes` status queries
and then fails with `GenerationTimeout`; `timeoutMinutes = 1` bounds it
at 60 ticks. -/
theorem C3_poll_timeout (responses : Nat → Option PromptResult)
    (timeoutMinutes : Nat)
    (h : ∀ i, i < 60 * timeoutMinutes → observesNoCompletion (responses i)) :
    pollLoop responses timeoutMinutes =
      (.error .generationTimeout, 60 * timeoutMinutes) := by
  have ht := pollAux_timeout responses (60 * timeoutMinutes) 0
    (fun i _ hi => pollTick_eq_none_of _ (h i (by omega)))
  simpa [pollLoop] using ht

/-- C3 witness: a backend that never indexes the job; `timeoutMinutes =
1` times out after exactly 60 queries. -/
theorem C3_poll_timeout_witness :
    pollLoop (fun _ => none) 1 = (.error .generationTimeout, 60) := by
  have h := C3_poll_timeout (fun _ => none) 1
    (fun i _ => by intro pr st h1 h2; cases h1)
  simpa using h

/-- C4: on the first tick whose record has `completed = true` and status
label `error` — all earlier ticks having the record absent, the status
field undefined, or `completed = false` — the loop fails with
`GenerationFailed` after exactly `j + 1` status queries, never
performing a further one. -/
theorem C4_poll_error_stops (responses : Nat → Option PromptResult)
    (timeoutMinutes j : Nat) (pr : PromptResult) (st : PromptStatus)
    (hj : j < 60 * timeoutMinutes)
    (hearlier : ∀ i, i < j → observesNoCompletion (responses i))
    (hrec : responses j = some pr)
    (hst : pr.status = some st)
    (hcompleted : st.completed = true)
    (herr : st.status_str = some "error") :
    pollLoop responses timeoutMinutes = (.error .generationFailed, j + 1) := by
  have htick : pollTick (responses j) = some (.error .generationFailed) := by
    simp [pollTick, hrec, hst, hcompleted, herr]
  have hh := pollAux_first_hit responses (.error .generationFailed)
    (60 * timeoutMinutes) 0 j (by omega) (by omega)
    (fun i _ hi => pollTick_eq_none_of _ (hearlier i hi)) htick
  simpa [pollLoop] using hh

/-- C4 witness: the error record arrives on the third query of a
60-query budget; the loop stops at query 3. -/
theorem C4_poll_error_stops_witness :
    pollLoop errResponses 1 = (.error .generationFailed, 3) := by
  refine C4_poll_error_stops errResponses 1 2 errRec errStatus (by omega) ?_ rfl rfl rfl rfl
  intro i hi pr st h1 h2
  simp only [errResponses, if_neg (show ¬ i = 2 by omega)] at h1
  cases h1

/-- C8: the returned MIME type and file-extension label are derived
purely from the selected filename's extension by the fixed 3-way
mapping: `.mp4 ↦ (video/mp4, mp4)`, otherwise `.gif ↦ (image/gif, gif)`,
and every other filename — `.webp` included — to the `(image/webp,
webp)` default. -/
theorem C8_mime_mapping (f : String) :
    (strEndsWith f ".mp4" = true → mimeFor f = ("video/mp4", "mp4")) ∧
    (strEndsWith f ".mp4" = false → strEndsWith f ".gif" = true →
      mimeFor f = ("image/gif", "gif")) ∧
    (strEndsWith f ".mp4" = false → strEndsWith f ".gif" = false →
      mimeFor f = ("image/webp", "webp")) := by
  refine ⟨?_, ?_, ?_⟩
  · intro h
    simp [mimeFor, h]
  · intro h1 h2
    simp [mimeFor, h1, h2]
  · intro h1 h2
    simp [mimeFor, h1, h2]

/-- C8 witness: the mapping at an `.mp4`, a `.gif` and a `.webp`
filename. -/
theorem C8_mime_mapping_witness :
    mimeFor "clip.mp4" = ("video/mp4", "mp4") ∧
    mimeFor "anim.gif" = ("image/gif", "gif") ∧
    mimeFor "result.webp" = ("image/webp", "webp") :=
  ⟨(C8_mime_mapping "clip.mp4").1 (by decide),
   (C8_mime_mapping "anim.gif").2.1 (by decide) (by decide),
   (C8_mime_mapping "result.webp").2.2 (by decide) (by decide)⟩

/-- C9: every execution uploads the image under the canonical fixed
filename `input.png` and, when audio is uploaded, the audio under
`input.mp3`; every upload request posts to `/upload/image` with the
bytes under multipart field `image`, `subfolder = ""` and
`overwrite = "true"`. -/
theorem C9_upload_conventions (apiUrl : String) (audioUploaded : Bool) :
    (executeUploads apiUrl audioUploaded).head? =
      some (uploadRequest apiUrl "input.png") ∧
    (∀ r ∈ executeUploads apiUrl audioUploaded,
      r.url = apiUrl ++ "/upload/image" ∧ r.fileField = "image" ∧
      r.subfolder = "" ∧ r.overwrite = "true" ∧
      (r.filename = "input.png" ∨ r.filename = "input.mp3")) ∧
    (audioUploaded = true →
      executeUploads apiUrl audioUploaded =
        [uploadRequest apiUrl "input.png", uploadRequest apiUrl "input.mp3"]) := by
  refine ⟨?_, ?_, ?_⟩
  · cases audioUploaded <;> rfl
  · intro r hr
    cases audioUploaded with
    | false =>
      simp [executeUploads] at hr
      subst hr
      simp [uploadRequest]
    | true =>
      simp [executeUploads] at hr
      rcases hr with rfl | rfl <;> simp [uploadRequest]
  · intro h
    subst h
    rfl

/-- C9 witness: with audio, the two upload requests in source order. -/
theorem C9_upload_conventions_witness :
    executeUploads "http://h" true =
      [uploadRequest "http://h" "input.png", uploadRequest "http://h" "input.mp3"] :=
  (C9_upload_conventions "http://h" true).2.2 rfl

/-- C10: when an audio binary property name is supplied but the item's
binary data has no property of that name, the audio upload and patch are
silently skipped — no error, execution proceeds image-only exactly as if
no audio property name had been given — and the MIME-category check
never fires (the plan reports no upload rather than
`InvalidInputMedia`). -/
theorem C10_missing_audio_binary (propName : String) (binary : BinaryTable)
    (assetName : String) (wf : Workflow)
    (hne : propName ≠ "")
    (hmiss : binary.lookup propName = none) :
    audioPhase propName binary assetName wf = .ok wf ∧
    audioPhase propName binary assetName wf = audioPhase "" binary assetName wf ∧
    audioUploadPlan propName binary = .ok false := by
  have hplan : audioUploadPlan propName binary = .ok false := by
    simp [audioUploadPlan, hne, hmiss]
  have hplan0 : audioUploadPlan "" binary = .ok false := by
    simp [audioUploadPlan]
  refine ⟨?_, ?_, hplan⟩
  · simp [audioPhase, hplan]
  · simp only [audioPhase]
    rw [hplan, hplan0]

/-- C10 witness: property `aud` requested, only `other` attached — the
audio phase no-ops on the scenario graph. -/
theorem C10_missing_audio_binary_witness :
    audioPhase "aud" [("other", some "audio/mpeg")] "input.mp3" exWf = .ok exWf ∧
    audioUploadPlan "aud" [("other", some "audio/mpeg")] = .ok false := by
  have h := C10_missing_audio_binary "aud" [("other", some "audio/mpeg")]
    "input.mp3" exWf (by decide) rfl
  exact ⟨h.1, h.2.2⟩

end ComfyUI
